import Mathlib

/-!
Verification development for the XLS-Convert document-to-table extraction
pipeline.  The TypeScript sources are shallowly embedded: JavaScript numbers
are modelled as rationals, JavaScript strings as Lean strings, fallible code
as Option/Except, and the stateful page-processing loop as explicit folds.
Each definition mirrors one function of the repository (named in its doc
comment); theorems at the end settle the specification claims.
-/

namespace XLSConvert

/-- Mirrors the Transaction record of structure-pdf-data-flow.ts: date and
description are required strings, debit and credit are optional numbers and
balance is a nullable number.  JavaScript numbers are modelled as rationals. -/
structure Transaction where
  date : String
  description : String
  debit : Option ℚ
  credit : Option ℚ
  balance : Option ℚ
deriving DecidableEq, Repr

/-- Mirrors the Header record of structure-pdf-data-flow.ts (all fields
optional). -/
structure Header where
  bankName : Option String
  accountNumber : Option String
  accountHolderName : Option String
  statementPeriod : Option String
  statementDate : Option String
  openingBalance : Option ℚ
deriving DecidableEq, Repr

/-- Mirrors the Footer record of structure-pdf-data-flow.ts (all fields
optional). -/
structure Footer where
  closingBalance : Option ℚ
  totalDebits : Option ℚ
  totalCredits : Option ℚ
  totalWithdrawals : Option ℚ
  totalDeposits : Option ℚ
  summary : Option String
deriving DecidableEq, Repr

/-- Mirrors StructuredPdfDataOutput of structure-pdf-data-flow.ts: optional
header, a list of transactions, optional footer. -/
structure StructuredPdfDataOutput where
  header : Option Header
  transactions : List Transaction
  footer : Option Footer
deriving DecidableEq, Repr

/-! ### JavaScript string primitives

The validation and formatting code uses the JavaScript string methods trim,
toLowerCase and the argument-free Array sort.  They are modelled on the
underlying character lists so that every definition evaluates inside the
kernel. -/

/-- The whitespace characters the JavaScript trim method removes (ASCII
whitespace, no-break space and the byte-order mark; the remaining Unicode
space characters never occur in the extracted data). -/
def isJsWhitespace (c : Char) : Bool :=
  c.toNat = 32 || c.toNat = 9 || c.toNat = 10 || c.toNat = 13 ||
  c.toNat = 11 || c.toNat = 12 || c.toNat = 160 || c.toNat = 65279

/-- Models the JavaScript trim method: remove leading and trailing
whitespace. -/
def jsTrim (s : String) : String :=
  String.mk (((s.data.dropWhile isJsWhitespace).reverse.dropWhile
    isJsWhitespace).reverse)

/-- Models the JavaScript toLowerCase method on the ASCII letters occurring
in the compared labels. -/
def jsToLowerChar (c : Char) : Char :=
  if 'A' ≤ c && c ≤ 'Z' then Char.ofNat (c.toNat + 32) else c

/-- Models the JavaScript toLowerCase method. -/
def jsToLower (s : String) : String := String.mk (s.data.map jsToLowerChar)

/-- Lexicographic comparison of character lists, as the argument-free
JavaScript Array sort compares strings (by code unit, which agrees with the
code point for the basic multilingual plane). -/
def lexLe : List Char → List Char → Bool
  | [], _ => true
  | _ :: _, [] => false
  | a :: as, b :: bs => if a < b then true else if b < a then false else lexLe as bs

/-- The string comparison of the argument-free JavaScript Array sort, as a
relation. -/
def jsLe (a b : String) : Prop := lexLe a.data b.data = true

instance : DecidableRel jsLe := fun a b =>
  inferInstanceAs (Decidable (lexLe a.data b.data = true))

/-! ### Date parsing

The validation pass in env.ts calls the JavaScript Date constructor on the
transaction date strings.  The structuring schema mandates the strict
YYYY-MM-DD format, which the JavaScript engine parses as a UTC calendar date
and rejects (NaN) when a component is out of range.  We model this parser for
the strict 10-character YYYY-MM-DD format, mapping a valid date to its day
number in the proleptic Gregorian calendar and every other string to none
(the NaN outcome).  Only differences of day numbers are ever consumed. -/

/-- Numeric value of a decimal digit character. -/
def digitVal (c : Char) : Nat := c.toNat - '0'.toNat

/-- True in a leap year of the proleptic Gregorian calendar, as implemented
by the JavaScript Date object. -/
def isLeapYear (y : Nat) : Bool := (y % 4 == 0 && y % 100 != 0) || y % 400 == 0

/-- Length of a month, used to model the range check the JavaScript engine
applies to ISO date strings. -/
def daysInMonth (y m : Nat) : Nat :=
  if m = 2 then (if isLeapYear y then 29 else 28)
  else if m = 4 || m = 6 || m = 9 || m = 11 then 30
  else 31

/-- Days in the months strictly before month m (1-based), in year y. -/
def daysBeforeMonth (y m : Nat) : Nat :=
  (List.range (m - 1)).foldl (fun acc i => acc + daysInMonth y (i + 1)) 0

/-- Day number of a calendar date counted from 0000-01-01 of the proleptic
Gregorian calendar; leap years counted with floor divisions on naturals. -/
def dayNumber (y m d : Nat) : Int :=
  (365 * y + (y + 3) / 4 - (y + 99) / 100 + (y + 399) / 400
    + daysBeforeMonth y m + (d - 1) : Int)

/-- Models the JavaScript Date parse of a transaction date string, restricted
to the strict YYYY-MM-DD format the structuring schema mandates; returns the
UTC day number, or none for the Invalid Date (NaN) outcome.  Strings in other
formats are treated as unparseable. -/
def parseIsoDate (s : String) : Option Int :=
  match s.data with
  | [y1, y2, y3, y4, s1, m1, m2, s2, d1, d2] =>
    if y1.isDigit && y2.isDigit && y3.isDigit && y4.isDigit && s1 = '-' &&
       m1.isDigit && m2.isDigit && s2 = '-' && d1.isDigit && d2.isDigit then
      let y := digitVal y1 * 1000 + digitVal y2 * 100 + digitVal y3 * 10 + digitVal y4
      let m := digitVal m1 * 10 + digitVal m2
      let d := digitVal d1 * 10 + digitVal d2
      if 1 ≤ m && m ≤ 12 && 1 ≤ d && d ≤ daysInMonth y m then
        some (dayNumber y m d)
      else none
    else none
  | _ => none

/-! ### Validation engine (validateTransactionData in env.ts)

The issues and accuracy warnings the function pushes are formatted strings in
the source; each push site is modelled by one constructor carrying the data
interpolated into the message, so that occurrences can be counted exactly. -/

/-- One entry of the issues list of validateTransactionData; constructors
correspond one-to-one to the push sites for issues in env.ts. -/
inductive Issue where
  | noTransactions : Issue
  | missingDate (idx : Nat) : Issue
  | missingDescription (idx : Nat) : Issue
  | dateGap (d1 d2 : String) : Issue
deriving DecidableEq, Repr

/-- One entry of the accuracyWarnings list of validateTransactionData;
constructors correspond one-to-one to the push sites for warnings in env.ts,
carrying the values interpolated into the message. -/
inductive Warning where
  | totalDebitsMismatch (extracted footerVal : ℚ) : Warning
  | totalCreditsMismatch (extracted footerVal : ℚ) : Warning
  | closingBalanceMismatch (lastBalance footerVal : ℚ) : Warning
  | totalWithdrawalsMismatch (extracted footerVal : ℚ) : Warning
  | totalDepositsMismatch (extracted footerVal : ℚ) : Warning
  | debitPrecision (idx : Nat) (v : ℚ) : Warning
  | creditPrecision (idx : Nat) (v : ℚ) : Warning
  | balancePrecision (idx : Nat) (v : ℚ) : Warning
deriving DecidableEq, Repr

/-- Mirrors the result record of validateTransactionData. -/
structure ValidationResult where
  isValid : Bool
  issues : List Issue
  accuracyWarnings : List Warning
deriving DecidableEq, Repr

/-- Mirrors the missing-date test in env.ts: not t.date, or t.date.trim()
equal to the empty string. -/
def missingDateB (t : Transaction) : Bool := t.date == "" || jsTrim t.date == ""

/-- Mirrors the missing-description test in env.ts. -/
def missingDescB (t : Transaction) : Bool :=
  t.description == "" || jsTrim t.description == ""

/-- Mirrors the forEach loop of validateTransactionData that flags missing
required fields; i is the zero-based index of the first listed transaction
(messages use index + 1). -/
def missingFieldIssues : Nat → List Transaction → List Issue
  | _, [] => []
  | i, t :: rest =>
    (if missingDateB t then [Issue.missingDate (i + 1)] else []) ++
    (if missingDescB t then [Issue.missingDescription (i + 1)] else []) ++
    missingFieldIssues (i + 1) rest

/-- Mirrors the date collection of validateTransactionData: map to the date
field, keep the strings with non-empty trim. -/
def datesOf (ts : List Transaction) : List String :=
  (ts.map (fun t => t.date)).filter (fun d => !(jsTrim d == ""))

/-- Models the argument-free JavaScript Array sort of the collected date
strings: lexicographic string order.  On a linear order every comparison sort
produces the same sorted list, so insertion sort is used. -/
def sortDates (ds : List String) : List String :=
  List.insertionSort jsLe ds

/-- Mirrors the gap test of validateTransactionData for one adjacent pair of
sorted dates: more than 30 days apart; an unparseable date gives NaN in the
source, and every NaN comparison is false. -/
def isGapPair (d1 d2 : String) : Bool :=
  match parseIsoDate d1, parseIsoDate d2 with
  | some x, some y => (y - x).natAbs > 30
  | _, _ => false

/-- Mirrors the adjacent-pair loop of validateTransactionData over the sorted
date list. -/
def gapIssuesOfSorted : List String → List Issue
  | d1 :: d2 :: rest =>
    (if isGapPair d1 d2 then [Issue.dateGap d1 d2] else []) ++
    gapIssuesOfSorted (d2 :: rest)
  | _ => []

/-- Date-gap issues of a transaction list: collect, sort, compare adjacent
pairs, exactly as validateTransactionData does. -/
def dateGapIssues (ts : List Transaction) : List Issue :=
  gapIssuesOfSorted (sortDates (datesOf ts))

/-- Mirrors the extracted-total computation of validateTransactionData:
map each transaction to debit-or-zero and reduce with addition from zero. -/
def sumDebits (ts : List Transaction) : ℚ :=
  (ts.map (fun t => t.debit.getD 0)).foldl (fun sum debit => sum + debit) 0

/-- Mirrors the extracted-total computation for credits. -/
def sumCredits (ts : List Transaction) : ℚ :=
  (ts.map (fun t => t.credit.getD 0)).foldl (fun sum credit => sum + credit) 0

/-- The 1-cent tolerance constant of validateTransactionData. -/
def tolerance : ℚ := 1 / 100

/-- Mirrors the JavaScript Math.abs on the exact rational model. -/
def jsAbs (q : ℚ) : ℚ := if q < 0 then -q else q

/-- Mirrors the totalDebits comparison of validateTransactionData. -/
def totalDebitsCheck (ts : List Transaction) (footer : Footer) : List Warning :=
  match footer.totalDebits with
  | some v =>
    if jsAbs (sumDebits ts - v) > tolerance then
      [Warning.totalDebitsMismatch (sumDebits ts) v] else []
  | none => []

/-- Mirrors the totalCredits comparison of validateTransactionData. -/
def totalCreditsCheck (ts : List Transaction) (footer : Footer) : List Warning :=
  match footer.totalCredits with
  | some v =>
    if jsAbs (sumCredits ts - v) > tolerance then
      [Warning.totalCreditsMismatch (sumCredits ts) v] else []
  | none => []

/-- Mirrors the closingBalance comparison of validateTransactionData: it runs
only when the list is non-empty (getLast of the model encodes the length
guard of the source) and the last transaction has a balance. -/
def closingBalanceCheck (ts : List Transaction) (footer : Footer) : List Warning :=
  match footer.closingBalance with
  | some v =>
    match ts.getLast? with
    | some lastT =>
      match lastT.balance with
      | some b =>
        if jsAbs (b - v) > tolerance then
          [Warning.closingBalanceMismatch b v] else []
      | none => []
    | none => []
  | none => []

/-- Mirrors the totalWithdrawals comparison of validateTransactionData (the
source compares the extracted debit total against it). -/
def totalWithdrawalsCheck (ts : List Transaction) (footer : Footer) : List Warning :=
  match footer.totalWithdrawals with
  | some v =>
    if jsAbs (sumDebits ts - v) > tolerance then
      [Warning.totalWithdrawalsMismatch (sumDebits ts) v] else []
  | none => []

/-- Mirrors the totalDeposits comparison of validateTransactionData (the
source compares the extracted credit total against it). -/
def totalDepositsCheck (ts : List Transaction) (footer : Footer) : List Warning :=
  match footer.totalDeposits with
  | some v =>
    if jsAbs (sumCredits ts - v) > tolerance then
      [Warning.totalDepositsMismatch (sumCredits ts) v] else []
  | none => []

/-- Mirrors the footer-comparison block of validateTransactionData; the five
comparisons run in source order and each appends at most one warning. -/
def footerWarnings (ts : List Transaction) (footer : Footer) : List Warning :=
  totalDebitsCheck ts footer ++ totalCreditsCheck ts footer ++
  closingBalanceCheck ts footer ++ totalWithdrawalsCheck ts footer ++
  totalDepositsCheck ts footer

/-- Mirrors the more-than-2-decimal-places test of validateTransactionData.
For numbers with a finite decimal expansion - the only values the decimal
string of a JavaScript number exposes past the radix point in this context -
the printed fraction has more than two digits exactly when the value times
100 is not an integer. -/
def hasMoreThan2Decimals (q : ℚ) : Bool := (q * 100).den != 1

/-- Mirrors the numeric-precision forEach loop of validateTransactionData;
per transaction it checks debit, credit and balance in that order. -/
def precisionWarnings : Nat → List Transaction → List Warning
  | _, [] => []
  | i, t :: rest =>
    (match t.debit with
     | some v => if hasMoreThan2Decimals v then [Warning.debitPrecision (i + 1) v] else []
     | none => []) ++
    (match t.credit with
     | some v => if hasMoreThan2Decimals v then [Warning.creditPrecision (i + 1) v] else []
     | none => []) ++
    (match t.balance with
     | some v => if hasMoreThan2Decimals v then [Warning.balancePrecision (i + 1) v] else []
     | none => []) ++
    precisionWarnings (i + 1) rest

/-- Mirrors validateTransactionData of env.ts.  An empty list returns early
with the single no-transactions issue; otherwise issues collect the
missing-field and date-gap checks, warnings collect the footer comparisons
(when a footer is present) followed by the precision checks, and isValid is
the emptiness test on issues. -/
def validateTransactionData (ts : List Transaction) (footer : Option Footer) :
    ValidationResult :=
  if ts.isEmpty then
    { isValid := false, issues := [Issue.noTransactions], accuracyWarnings := [] }
  else
    let issues := missingFieldIssues 0 ts ++ dateGapIssues ts
    let warnings :=
      (match footer with
       | some f => footerWarnings ts f
       | none => []) ++ precisionWarnings 0 ts
    { isValid := issues.length == 0, issues := issues, accuracyWarnings := warnings }

/-! ### Tabular formatter (formatStructuredDataForExcel in env.ts) -/

/-- One cell of the matrix the formatter produces; mirrors the TypeScript
cell type string or number or null. -/
inductive Cell where
  | str (s : String) : Cell
  | num (q : ℚ) : Cell
  | null : Cell
deriving DecidableEq, Repr

/-- The sentinel message of formatStructuredDataForExcel. -/
def noDataMsg : String :=
  "No financial transaction data could be extracted from the document."

/-- A header or footer key/value row with a string value, pushed only when
the field is present and truthy (a present empty string is falsy in the
source and is not pushed). -/
def optStrRow (label : String) (v : Option String) : List (List Cell) :=
  match v with
  | some s => if s == "" then [] else [[Cell.str label, Cell.str s]]
  | none => []

/-- A header or footer key/value row with a numeric value; the source pushes
it whenever the field is neither undefined nor null (zero is pushed). -/
def optNumRow (label : String) (v : Option ℚ) : List (List Cell) :=
  match v with
  | some q => [[Cell.str label, Cell.num q]]
  | none => []

/-- The header block of formatStructuredDataForExcel: one key/value row per
present field, in source order, followed by one empty separator row. -/
def headerRows (h : Header) : List (List Cell) :=
  optStrRow "Bank Name:" h.bankName ++
  optStrRow "Account Number:" h.accountNumber ++
  optStrRow "Account Holder:" h.accountHolderName ++
  optStrRow "Statement Period:" h.statementPeriod ++
  optStrRow "Statement Date:" h.statementDate ++
  optNumRow "Opening Balance:" h.openingBalance ++
  [[]]

/-- The footer block of formatStructuredDataForExcel: one empty separator row
followed by one key/value row per present field, in source order. -/
def footerRows (f : Footer) : List (List Cell) :=
  [[]] ++
  optNumRow "Closing Balance:" f.closingBalance ++
  optNumRow "Total Debits:" f.totalDebits ++
  optNumRow "Total Credits:" f.totalCredits ++
  optNumRow "Total Withdrawals:" f.totalWithdrawals ++
  optNumRow "Total Deposits:" f.totalDeposits ++
  optStrRow "Summary:" f.summary

/-- The fixed transaction header row of formatStructuredDataForExcel. -/
def tableHeaderRow : List Cell :=
  [Cell.str "Date", Cell.str "Description", Cell.str "Paid Out",
   Cell.str "Paid In", Cell.str "Balance"]

/-- An optional numeric field as a cell: the number when present, otherwise
null, as in the transaction-row mapping of formatStructuredDataForExcel. -/
def optCell (v : Option ℚ) : Cell :=
  match v with
  | some q => Cell.num q
  | none => Cell.null

/-- One transaction row of formatStructuredDataForExcel.  The source writes
t.date-or-empty and t.description-or-empty, which for string fields is the
field itself. -/
def txnRow (t : Transaction) : List Cell :=
  [Cell.str t.date, Cell.str t.description,
   optCell t.debit, optCell t.credit, optCell t.balance]

/-- Mirrors formatStructuredDataForExcel of env.ts.  A null input or an empty
transaction list returns the single-cell sentinel; otherwise the matrix is
assembled as header block, transaction header row, transaction rows; then the
source compares the assembled length against 7 (header present) or 1 (no
header) and returns the sentinel on equality, and finally appends the footer
block when a footer is present. -/
def formatStructuredDataForExcel (structuredData : Option StructuredPdfDataOutput) :
    List (List Cell) :=
  match structuredData with
  | none => [[Cell.str noDataMsg]]
  | some sd =>
    if sd.transactions.isEmpty then [[Cell.str noDataMsg]]
    else
      let hdr := match sd.header with
        | some h => headerRows h
        | none => []
      let excelData := hdr ++ [tableHeaderRow] ++ sd.transactions.map txnRow
      if excelData.length = (if sd.header.isSome then 7 else 1) then
        [[Cell.str noDataMsg]]
      else
        excelData ++ (match sd.footer with
          | some f => footerRows f
          | none => [])

/-! ### Table bounds and the spreadsheet cell typer (env.ts) -/

/-- Mirrors the TableBounds record of findTransactionTableBounds; indices are
integers because the JavaScript endRow can be length minus one of an empty
matrix, which is negative. -/
structure TableBounds where
  startRow : Int
  endRow : Int
  headerRow : Int
deriving DecidableEq, Repr

/-- Mirrors the header-row test inside findTransactionTableBounds: the
stringified first cell, lower-cased, equals "date".  Stringification of a
falsy first cell (null, empty row slot, numeric zero) yields the empty
string; no number or null ever stringifies to "date", so only a string first
cell can match. -/
def firstCellIsDate (row : List Cell) : Bool :=
  match row.head? with
  | some (Cell.str s) => jsToLower s == "date"
  | _ => false

/-- Mirrors the header-row candidate test of findTransactionTableBounds: at
least five cells and a first cell that case-insensitively equals "date". -/
def isHeaderCandRow (row : List Cell) : Bool :=
  decide (row.length ≥ 5) && firstCellIsDate row

/-- Mirrors the end-of-table test of findTransactionTableBounds: a row with
at least one cell whose stringified, lower-cased first cell is empty or one
of the footer labels.  Null and numeric zero stringify to the empty string
under the or-empty coercion of the source; zero-length rows fail the length
guard and never end the table. -/
def firstCellEndsTable (row : List Cell) : Bool :=
  match row.head? with
  | none => false
  | some Cell.null => true
  | some (Cell.num q) => q == 0
  | some (Cell.str s) =>
    s == "" || jsToLower s == "closing balance" || jsToLower s == "total debits" ||
    jsToLower s == "total credits" || jsToLower s == "summary"

/-- Index scan mirroring the for loops of findTransactionTableBounds: the
first index at or after i (the index of the first listed row) whose row
satisfies p. -/
def scanIdx (p : List Cell → Bool) : Nat → List (List Cell) → Option Nat
  | _, [] => none
  | i, r :: rest => if p r then some i else scanIdx p (i + 1) rest

/-- Mirrors findTransactionTableBounds of env.ts: locate the first header
candidate row; absent one, fall back to the whole grid with row 0 as header;
otherwise scan the rows after the header for the first end-of-table row and
stop just before it, or run to the last row. -/
def findTransactionTableBounds (data : List (List Cell)) : TableBounds :=
  match scanIdx isHeaderCandRow 0 data with
  | none => { startRow := 0, endRow := (data.length : Int) - 1, headerRow := 0 }
  | some h =>
    let endRow : Int :=
      match scanIdx firstCellEndsTable (h + 1) (data.drop (h + 1)) with
      | some i => (i : Int) - 1
      | none => (data.length : Int) - 1
    { startRow := (h : Int), endRow := endRow, headerRow := (h : Int) }

/-- The semantic cell type the typing loop of exportToExcel assigns: numeric
with the two-decimal thousands-separator format, a date cell, or text. -/
inductive CellKind where
  | numeric2 : CellKind
  | dateCell : CellKind
  | text : CellKind
deriving DecidableEq, Repr

/-- Strict match of the date regular expression of exportToExcel: four
digits, hyphen, two digits, hyphen, two digits, anchored at both ends. -/
def isoDateShape (s : String) : Bool :=
  match s.data with
  | [y1, y2, y3, y4, s1, m1, m2, s2, d1, d2] =>
    y1.isDigit && y2.isDigit && y3.isDigit && y4.isDigit && s1 = '-' &&
    m1.isDigit && m2.isDigit && s2 = '-' && d1.isDigit && d2.isDigit
  | _ => false

/-- True for a numeric cell; mirrors the typeof number tests of the typing
loop. -/
def cellIsNum (c : Cell) : Bool :=
  match c with
  | Cell.num _ => true
  | _ => false

/-- Mirrors the per-cell branch of the formatting loop of exportToExcel for a
materialized cell at the given row and column, relative to the detected table
bounds: in-table numeric columns holding numbers get the two-decimal numeric
format; in-table first-column date-shaped strings become date cells when the
date construction succeeds and stay text otherwise; any other number gets the
two-decimal numeric format; everything else is text. -/
def cellTypeAt (b : TableBounds) (row col : Int) (c : Cell) : CellKind :=
  let inTable := decide (b.startRow ≤ row) && decide (row ≤ b.endRow)
  let isHeaderRow := decide (row = b.headerRow)
  let isNumericColumn :=
    inTable && (decide (col = 2) || decide (col = 3) || decide (col = 4))
  let isDateColumn := inTable && decide (col = 0) && !isHeaderRow
  if isNumericColumn && !isHeaderRow && cellIsNum c then CellKind.numeric2
  else
    match c with
    | Cell.str s =>
      if isDateColumn && isoDateShape s then
        if (parseIsoDate s).isSome then CellKind.dateCell else CellKind.text
      else CellKind.text
    | Cell.num _ => CellKind.numeric2
    | Cell.null => CellKind.text

/-- The materialized worksheet cell at a position: the sheet builder of the
export path skips null and missing values, so those positions hold no cell
and the typing loop skips them. -/
def cellAt (data : List (List Cell)) (r c : Nat) : Option Cell :=
  match data.get? r with
  | none => none
  | some row =>
    match row.get? c with
    | none => none
    | some Cell.null => none
    | some cell => some cell

/-- The semantic type exportToExcel assigns to the worksheet cell at a
position of the matrix, or none where no cell is materialized. -/
def sheetCellKind (data : List (List Cell)) (r c : Nat) : Option CellKind :=
  (cellAt data r c).map
    (cellTypeAt (findTransactionTableBounds data) (r : Int) (c : Int))

/-- Mirrors the freeze-pane computation of exportToExcel: the split is placed
one row below the detected header row, so this is the first scrolling row. -/
def frozenRowIndex (data : List (List Cell)) : Int :=
  (findTransactionTableBounds data).headerRow + 1

/-! ### Export-time data validation (validateDataBeforeExport, exportToExcel) -/

/-- A JavaScript value arriving in the export matrix; beside the legal string,
number, null and undefined values, vother stands for every other runtime type
(object, boolean, function), which the validator rejects. -/
inductive JsVal where
  | vstr (s : String) : JsVal
  | vnum (q : ℚ) : JsVal
  | vnull : JsVal
  | vundef : JsVal
  | vother : JsVal
deriving DecidableEq, Repr

/-- A row of the export matrix as JavaScript sees it: an array of values, or
a non-array value. -/
inductive JsRow where
  | notArray : JsRow
  | arr (cells : List JsVal) : JsRow
deriving DecidableEq, Repr

/-- Mirrors the cell rejection test of validateDataBeforeExport: not null,
not a string, not a number and not undefined. -/
def invalidCell (c : JsVal) : Bool :=
  match c with
  | JsVal.vother => true
  | _ => false

/-- Mirrors the result record of validateDataBeforeExport. -/
structure ExportValidation where
  isValid : Bool
  error : Option String
deriving DecidableEq, Repr

/-- Mirrors the inner column loop of validateDataBeforeExport: the first
invalid cell of the row produces the error message; ri and ci are the
zero-based row index and the zero-based index of the first listed cell. -/
def findCellError : Nat → Nat → List JsVal → Option String
  | _, _, [] => none
  | ri, ci, c :: rest =>
    if invalidCell c then
      some ("Invalid cell type at row " ++ toString (ri + 1) ++ ", column " ++
        toString (ci + 1))
    else findCellError ri (ci + 1) rest

/-- Mirrors the outer row loop of validateDataBeforeExport: a non-array row
or a row containing an invalid cell produces the first error message; i is
the zero-based index of the first listed row. -/
def findRowError : Nat → List JsRow → Option String
  | _, [] => none
  | i, JsRow.notArray :: _ => some ("Row " ++ toString (i + 1) ++ " is not an array")
  | i, JsRow.arr cells :: rest =>
    match findCellError i 0 cells with
    | some e => some e
    | none => findRowError (i + 1) rest

/-- Mirrors validateDataBeforeExport of env.ts. -/
def validateDataBeforeExport (data : List JsRow) : ExportValidation :=
  if data.isEmpty then { isValid := false, error := some "No data to export" }
  else
    match findRowError 0 data with
    | some e => { isValid := false, error := some e }
    | none => { isValid := true, error := none }

/-- Mirrors the entry of exportToExcel of env.ts: the structure validation
runs first and a failure throws its message before the worksheet or workbook
is constructed; the ok branch stands for the construction and file write that
only happen after validation passes. -/
def exportToExcelResult (data : List JsRow) : Except String (List JsRow) :=
  let validation := validateDataBeforeExport data
  if validation.isValid then Except.ok data
  else Except.error (validation.error.getD "Invalid data structure")

/-! ### Pipeline controller threshold (page.tsx) -/

/-- The constant MIN_TEXT_LENGTH_FOR_TEXT_PDF of page.tsx. -/
def MIN_TEXT_LENGTH_FOR_TEXT_PDF : Nat := 100

/-- Mirrors the branch condition of handleFileSelect: the direct-extraction
result is used when it is truthy (non-empty) and its length is strictly
greater than the threshold. -/
def usesDirectText (directText : String) : Bool :=
  decide (directText ≠ "") &&
    decide (directText.length > MIN_TEXT_LENGTH_FOR_TEXT_PDF)

/-- The OCR fallback runs exactly when the direct text is not used. -/
def runsOcrFallback (directText : String) : Bool := !usesDirectText directText

/-! ### Structuring client (structurePdfDataFlow) -/

/-- The raw capability response before cleansing, as the flow sees it: the
transactions array may be missing from a non-conforming model response. -/
structure RawStructuredOutput where
  header : Option Header
  transactions : Option (List Transaction)
  footer : Option Footer
deriving DecidableEq, Repr

/-- The error the flow signals when the capability returns no output. -/
inductive StructuringError where
  | noOutput : StructuringError
deriving DecidableEq, Repr

/-- Mirrors the cleansing filter of structurePdfDataFlow: a kept transaction
has a truthy date that trims to a non-empty string, and likewise for the
description. -/
def keepTransaction (t : Transaction) : Bool :=
  (decide (t.date ≠ "") && decide (jsTrim t.date ≠ "")) &&
  (decide (t.description ≠ "") && decide (jsTrim t.description ≠ ""))

/-- Mirrors structurePdfDataFlow of structure-pdf-data-flow.ts: a null
capability output throws; a missing transactions array yields an empty list
with header and footer passed through; otherwise the transactions are
filtered by the cleansing predicate and header and footer pass through. -/
def structurePdfDataFlow (output : Option RawStructuredOutput) :
    Except StructuringError StructuredPdfDataOutput :=
  match output with
  | none => Except.error StructuringError.noOutput
  | some o =>
    match o.transactions with
    | none => Except.ok { header := o.header, transactions := [], footer := o.footer }
    | some ts =>
      Except.ok { header := o.header, transactions := ts.filter keepTransaction,
                  footer := o.footer }

/-! ### OCR fallback orchestration (page.tsx with
convertPdfPagesToImageUrisIncremental of env.ts)

The per-page behaviour of the OCR branch of handleFileSelect is modelled as a
fold over the outcome of each page: the render either fails or produces a
bitmap, recognition of a rendered page either fails or returns text, and the
cancellation token may become set before some page.  A recognition failure is
caught in the page callback, logged and skipped; a cancellation error is
rethrown; a render failure aborts the conversion loop.  After the loop the
branch throws when the accumulator is still empty. -/

/-- The outcome of one page of the OCR loop. -/
inductive PageEvent where
  | renderError : PageEvent
  | recogError : PageEvent
  | recogOk (text : String) : PageEvent
deriving DecidableEq, Repr

/-- The ways the OCR branch can fail as a whole. -/
inductive OcrFailure where
  | cancelled : OcrFailure
  | renderFailed : OcrFailure
  | noTextAccumulated : OcrFailure
deriving DecidableEq, Repr

/-- True when the cancellation token, set before page j (zero-based), is
observed at the check preceding page i. -/
def cancelFired (cancelAt : Option Nat) (i : Nat) : Bool :=
  match cancelAt with
  | some j => decide (j ≤ i)
  | none => false

/-- The page loop of the OCR branch: check cancellation, render, recognize;
a recognition failure skips the page, recognized non-empty text is appended
to the accumulator followed by the page separator. -/
def ocrLoop : List PageEvent → Nat → Option Nat → String → Except OcrFailure String
  | [], _, _, acc => Except.ok acc
  | e :: rest, i, cancelAt, acc =>
    if cancelFired cancelAt i then Except.error OcrFailure.cancelled
    else
      match e with
      | PageEvent.renderError => Except.error OcrFailure.renderFailed
      | PageEvent.recogError => ocrLoop rest (i + 1) cancelAt acc
      | PageEvent.recogOk t =>
        ocrLoop rest (i + 1) cancelAt
          (if t == "" then acc else acc ++ t ++ "\n\n")

/-- The OCR branch of handleFileSelect: run the page loop from an empty
accumulator; when the loop completes with an empty accumulator the branch
throws the no-text error, otherwise the accumulated text is the raw text
output. -/
def ocrRun (pages : List PageEvent) (cancelAt : Option Nat) :
    Except OcrFailure String :=
  match ocrLoop pages 0 cancelAt "" with
  | Except.ok acc =>
    if acc == "" then Except.error OcrFailure.noTextAccumulated else Except.ok acc
  | Except.error e => Except.error e

/-- The text the OCR loop accumulates from a page list when nothing fails:
recognized non-empty texts in page order, each followed by the separator. -/
def accumTexts : List PageEvent → String
  | [] => ""
  | PageEvent.recogOk t :: rest =>
    (if t == "" then "" else t ++ "\n\n") ++ accumTexts rest
  | _ :: rest => accumTexts rest

/-! ### Helper lemmas -/

/-- Trimming the empty string gives the empty string. -/
theorem jsTrim_empty : jsTrim "" = "" := rfl

/-- The missing-date test fails exactly on dates that trim to a non-empty
string: an untrimmed-empty date is also trimmed-empty. -/
theorem missingDateB_eq_false_iff (t : Transaction) :
    missingDateB t = false ↔ jsTrim t.date ≠ "" := by
  unfold missingDateB
  rw [Bool.or_eq_false_iff]
  constructor
  · rintro ⟨_, h2⟩
    simpa using h2
  · intro h
    refine ⟨?_, by simpa using h⟩
    have : t.date ≠ "" := fun e => h (by rw [e]; rfl)
    simpa using this

/-- The missing-description test fails exactly on descriptions that trim to a
non-empty string. -/
theorem missingDescB_eq_false_iff (t : Transaction) :
    missingDescB t = false ↔ jsTrim t.description ≠ "" := by
  unfold missingDescB
  rw [Bool.or_eq_false_iff]
  constructor
  · rintro ⟨_, h2⟩
    simpa using h2
  · intro h
    refine ⟨?_, by simpa using h⟩
    have : t.description ≠ "" := fun e => h (by rw [e]; rfl)
    simpa using this

/-- The missing-field scan produces no issue exactly when every transaction
passes both field tests. -/
theorem missingFieldIssues_eq_nil_iff :
    ∀ (i : Nat) (ts : List Transaction), missingFieldIssues i ts = [] ↔
      ∀ t ∈ ts, missingDateB t = false ∧ missingDescB t = false := by
  intro i ts
  induction ts generalizing i with
  | nil => simp [missingFieldIssues]
  | cons t rest ih =>
    cases hd : missingDateB t <;> cases hds : missingDescB t <;>
      simp [missingFieldIssues, hd, hds, ih]

/-- Amended claim C1 (theorem).  For every transaction list and every
optional footer, validateTransactionData returns isValid equal to true if
and only if the list is non-empty, every transaction has a date and a
description that trim to non-empty strings, and the sorted date sequence
contains no adjacent gap of more than 30 days.  The footer argument is
universally quantified, so footer presence and the accuracy warnings never
affect isValid. -/
theorem validateTransactionData_isValid_iff
    (ts : List Transaction) (footer : Option Footer) :
    (validateTransactionData ts footer).isValid = true ↔
      (ts ≠ [] ∧
       (∀ t ∈ ts, jsTrim t.date ≠ "" ∧ jsTrim t.description ≠ "") ∧
       dateGapIssues ts = []) := by
  by_cases h : ts.isEmpty
  · have he : ts = [] := List.isEmpty_iff.mp h
    simp [validateTransactionData, h, he]
  · have hne : ts ≠ [] := fun e => h (by simp [e])
    simp only [validateTransactionData, h, if_false, Bool.if_false_right]
    constructor
    · intro hv
      have hlen : (missingFieldIssues 0 ts ++ dateGapIssues ts).length = 0 := by
        simpa using hv
      have hnil := List.length_eq_zero.mp hlen
      rcases List.append_eq_nil.mp hnil with ⟨hm, hg⟩
      refine ⟨hne, ?_, hg⟩
      intro t ht
      have := (missingFieldIssues_eq_nil_iff 0 ts).mp hm t ht
      exact ⟨(missingDateB_eq_false_iff t).mp this.1,
             (missingDescB_eq_false_iff t).mp this.2⟩
    · rintro ⟨_, hfields, hg⟩
      have hm : missingFieldIssues 0 ts = [] := by
        refine (missingFieldIssues_eq_nil_iff 0 ts).mpr ?_
        intro t ht
        exact ⟨(missingDateB_eq_false_iff t).mpr (hfields t ht).1,
               (missingDescB_eq_false_iff t).mpr (hfields t ht).2⟩
      simp [hm, hg]

/-- Witness for the amended claim C1 at a concrete valid list. -/
theorem validateTransactionData_isValid_iff_witness :
    (validateTransactionData
      [⟨"2024-01-01", "rent", none, none, none⟩,
       ⟨"2024-01-20", "salary", none, none, none⟩] none).isValid = true :=
  (validateTransactionData_isValid_iff
    [⟨"2024-01-01", "rent", none, none, none⟩,
     ⟨"2024-01-20", "salary", none, none, none⟩] none).mpr
    ⟨by decide, by decide, by decide⟩

/-- Counterexample to claim C1 as stated: two transactions with non-empty
dates and descriptions whose dates lie more than 30 days apart make
validateTransactionData return isValid equal to false, because the date-gap
check pushes an issue, not a warning. -/
theorem validateTransactionData_isValid_counterexample :
    (∀ t ∈ [(⟨"2024-01-01", "rent", none, none, none⟩ : Transaction),
            ⟨"2024-03-01", "salary", none, none, none⟩],
       jsTrim t.date ≠ "" ∧ jsTrim t.description ≠ "") ∧
    (validateTransactionData
      [⟨"2024-01-01", "rent", none, none, none⟩,
       ⟨"2024-03-01", "salary", none, none, none⟩] none).isValid = false := by
  constructor
  · decide
  · decide

/-! ### Order theory for the date sort -/

/-- Unfolding lemma for the lexicographic comparison on a pair of cons
cells. -/
theorem lexLe_cons_iff (a b : Char) (as bs : List Char) :
    lexLe (a :: as) (b :: bs) = true ↔
      (a < b ∨ (a = b ∧ lexLe as bs = true)) := by
  by_cases h1 : a < b
  · simp [lexLe, h1]
  · by_cases h2 : b < a
    · have hne : a ≠ b := fun e => absurd h2 (by rw [e]; exact lt_irrefl b)
      simp [lexLe, h1, h2, hne]
    · have he : a = b := le_antisymm (not_lt.mp h2) (not_lt.mp h1)
      subst he
      simp [lexLe, h1]

/-- The lexicographic comparison is total. -/
theorem lexLe_total : ∀ as bs : List Char, lexLe as bs = true ∨ lexLe bs as = true := by
  intro as
  induction as with
  | nil => intro bs; left; rfl
  | cons a as ih =>
    intro bs
    cases bs with
    | nil => right; rfl
    | cons b bs =>
      rcases lt_trichotomy a b with h | h | h
      · left
        exact (lexLe_cons_iff a b as bs).mpr (Or.inl h)
      · subst h
        rcases ih bs with h2 | h2
        · left
          exact (lexLe_cons_iff a a as bs).mpr (Or.inr ⟨rfl, h2⟩)
        · right
          exact (lexLe_cons_iff a a bs as).mpr (Or.inr ⟨rfl, h2⟩)
      · right
        exact (lexLe_cons_iff b a bs as).mpr (Or.inl h)

/-- The lexicographic comparison is transitive. -/
theorem lexLe_trans : ∀ as bs cs : List Char,
    lexLe as bs = true → lexLe bs cs = true → lexLe as cs = true := by
  intro as
  induction as with
  | nil => intro bs cs _ _; rfl
  | cons a as ih =>
    intro bs cs h1 h2
    cases bs with
    | nil => exact absurd h1 (by simp [lexLe])
    | cons b bs =>
      cases cs with
      | nil => exact absurd h2 (by simp [lexLe])
      | cons c cs =>
        rcases (lexLe_cons_iff a b as bs).mp h1 with hab | ⟨hab, hr1⟩ <;>
          rcases (lexLe_cons_iff b c bs cs).mp h2 with hbc | ⟨hbc, hr2⟩
        · exact (lexLe_cons_iff a c as cs).mpr (Or.inl (lt_trans hab hbc))
        · exact (lexLe_cons_iff a c as cs).mpr (Or.inl (hbc ▸ hab))
        · exact (lexLe_cons_iff a c as cs).mpr (Or.inl (hab ▸ hbc))
        · exact (lexLe_cons_iff a c as cs).mpr
            (Or.inr ⟨hab.trans hbc, ih bs cs hr1 hr2⟩)

/-- The lexicographic comparison is antisymmetric. -/
theorem lexLe_antisymm : ∀ as bs : List Char,
    lexLe as bs = true → lexLe bs as = true → as = bs := by
  intro as
  induction as with
  | nil =>
    intro bs h1 h2
    cases bs with
    | nil => rfl
    | cons b bs => exact absurd h2 (by simp [lexLe])
  | cons a as ih =>
    intro bs h1 h2
    cases bs with
    | nil => exact absurd h1 (by simp [lexLe])
    | cons b bs =>
      rcases (lexLe_cons_iff a b as bs).mp h1 with hab | ⟨hab, hr1⟩ <;>
        rcases (lexLe_cons_iff b a bs as).mp h2 with hba | ⟨hba, hr2⟩
      · exact absurd (lt_trans hab hba) (lt_irrefl a)
      · exact absurd (hba ▸ hab) (lt_irrefl a)
      · exact absurd (hab ▸ hba) (lt_irrefl a)
      · rw [hab, ih bs hr1 hr2]

instance : IsTotal String jsLe :=
  ⟨fun a b => lexLe_total a.data b.data⟩

instance : IsTrans String jsLe :=
  ⟨fun a b c h1 h2 => lexLe_trans a.data b.data c.data h1 h2⟩

instance : IsAntisymm String jsLe :=
  ⟨fun a b h1 h2 => by
    cases a with
    | mk d1 =>
      cases b with
      | mk d2 =>
        have : d1 = d2 := lexLe_antisymm d1 d2 h1 h2
        rw [this]⟩

/-- Sorting is invariant under permutation of the input: the sorted output of
a permutation is the same list, because both outputs are sorted permutations
of the same multiset under an antisymmetric total order. -/
theorem sortDates_eq_of_perm {l1 l2 : List String} (h : l1.Perm l2) :
    sortDates l1 = sortDates l2 :=
  List.eq_of_perm_of_sorted
    (((List.perm_insertionSort jsLe l1).trans h).trans
      (List.perm_insertionSort jsLe l2).symm)
    (List.sorted_insertionSort jsLe l1)
    (List.sorted_insertionSort jsLe l2)

/-- The collected date strings of a permuted transaction list are a
permutation of the original ones. -/
theorem datesOf_perm {ts1 ts2 : List Transaction} (h : ts1.Perm ts2) :
    (datesOf ts1).Perm (datesOf ts2) := by
  unfold datesOf
  exact (h.map (fun t => t.date)).filter (fun d => !(jsTrim d == ""))

/-- Recognizes the date-gap issue constructor. -/
def isDateGapIssue (x : Issue) : Bool :=
  match x with
  | Issue.dateGap _ _ => true
  | _ => false

/-- Every issue the adjacent-gap loop produces is a date-gap issue. -/
theorem mem_gapIssuesOfSorted_isGap :
    ∀ (l : List String) (x : Issue), x ∈ gapIssuesOfSorted l →
      isDateGapIssue x = true := by
  intro l
  induction l with
  | nil => intro x hx; simp [gapIssuesOfSorted] at hx
  | cons d rest ih =>
    cases rest with
    | nil => intro x hx; simp [gapIssuesOfSorted] at hx
    | cons d2 rest2 =>
      intro x hx
      simp only [gapIssuesOfSorted] at hx
      rcases List.mem_append.mp hx with h | h
      · by_cases hg : isGapPair d d2
        · simp [hg] at h
          rw [h]
          rfl
        · simp [hg] at h
      · exact ih x h

/-- No issue the missing-field scan produces is a date-gap issue. -/
theorem mem_missingFieldIssues_not_gap :
    ∀ (i : Nat) (ts : List Transaction) (x : Issue),
      x ∈ missingFieldIssues i ts → isDateGapIssue x = false := by
  intro i ts
  induction ts generalizing i with
  | nil => intro x hx; simp [missingFieldIssues] at hx
  | cons t rest ih =>
    intro x hx
    simp only [missingFieldIssues] at hx
    rcases List.mem_append.mp hx with h | h
    · rcases List.mem_append.mp h with h1 | h1
      · by_cases hd : missingDateB t
        · simp [hd] at h1
          rw [h1]; rfl
        · simp [hd] at h1
      · by_cases hds : missingDescB t
        · simp [hds] at h1
          rw [h1]; rfl
        · simp [hds] at h1
    · exact ih (i + 1) x h

/-- Claim C10 (theorem).  The date-gap issues of validateTransactionData are
invariant under permutation of the transaction list (for any footers): the
gap detection sorts the collected dates before comparing adjacent pairs, so
permuted inputs yield the very same list - hence the same multiset - of
date-gap issues. -/
theorem validateTransactionData_dateGap_perm_invariant
    (ts1 ts2 : List Transaction) (f1 f2 : Option Footer)
    (h : ts1.Perm ts2) :
    (validateTransactionData ts1 f1).issues.filter isDateGapIssue =
    (validateTransactionData ts2 f2).issues.filter isDateGapIssue := by
  by_cases h1 : ts1.isEmpty
  · have he1 : ts1 = [] := List.isEmpty_iff.mp h1
    subst he1
    have he2 : ts2 = [] := h.symm.eq_nil
    subst he2
    simp [validateTransactionData, isDateGapIssue]
  · have h2 : ¬ ts2.isEmpty = true := by
      intro hh
      have he2 : ts2 = [] := List.isEmpty_iff.mp hh
      subst he2
      have he1 : ts1 = [] := h.eq_nil
      exact h1 (by simp [he1])
    simp only [validateTransactionData]
    rw [if_neg h1, if_neg h2]
    rw [List.filter_append, List.filter_append]
    have hm1 : (missingFieldIssues 0 ts1).filter isDateGapIssue = [] :=
      List.filter_eq_nil_iff.mpr (fun x hx => by
        simp [mem_missingFieldIssues_not_gap 0 ts1 x hx])
    have hm2 : (missingFieldIssues 0 ts2).filter isDateGapIssue = [] :=
      List.filter_eq_nil_iff.mpr (fun x hx => by
        simp [mem_missingFieldIssues_not_gap 0 ts2 x hx])
    have hg1 : (dateGapIssues ts1).filter isDateGapIssue = dateGapIssues ts1 :=
      List.filter_eq_self.mpr (fun x hx => mem_gapIssuesOfSorted_isGap _ x hx)
    have hg2 : (dateGapIssues ts2).filter isDateGapIssue = dateGapIssues ts2 :=
      List.filter_eq_self.mpr (fun x hx => mem_gapIssuesOfSorted_isGap _ x hx)
    rw [hm1, hm2, hg1, hg2]
    unfold dateGapIssues
    rw [sortDates_eq_of_perm (datesOf_perm h)]

/-- Witness for claim C10 at a concrete two-element permutation. -/
theorem validateTransactionData_dateGap_perm_invariant_witness :
    (validateTransactionData
      [⟨"2024-01-01", "rent", none, none, none⟩,
       ⟨"2024-03-01", "salary", none, none, none⟩] none).issues.filter
        isDateGapIssue =
    (validateTransactionData
      [⟨"2024-03-01", "salary", none, none, none⟩,
       ⟨"2024-01-01", "rent", none, none, none⟩] none).issues.filter
        isDateGapIssue :=
  validateTransactionData_dateGap_perm_invariant _ _ none none (by decide)

/-! ### Footer-total tolerance (claim C6) -/

/-- Recognizes the total-debits mismatch warning constructor. -/
def isTotalDebitsWarning (w : Warning) : Bool :=
  match w with
  | Warning.totalDebitsMismatch _ _ => true
  | _ => false

/-- The precision scan never produces a total-debits mismatch warning. -/
theorem countP_precisionWarnings_td (i : Nat) (ts : List Transaction) :
    (precisionWarnings i ts).countP isTotalDebitsWarning = 0 := by
  induction ts generalizing i with
  | nil => simp [precisionWarnings]
  | cons t rest ih =>
    simp only [precisionWarnings, List.countP_append, ih]
    cases t.debit <;> cases t.credit <;> cases t.balance <;>
      simp [apply_ite (List.countP isTotalDebitsWarning), List.countP_cons,
        isTotalDebitsWarning]

/-- The total-credits comparison never produces a total-debits mismatch
warning. -/
theorem countP_totalCreditsCheck_td (ts : List Transaction) (f : Footer) :
    (totalCreditsCheck ts f).countP isTotalDebitsWarning = 0 := by
  unfold totalCreditsCheck
  cases f.totalCredits <;>
    simp [apply_ite (List.countP isTotalDebitsWarning), List.countP_cons,
      isTotalDebitsWarning]

/-- The closing-balance comparison never produces a total-debits mismatch
warning. -/
theorem countP_closingBalanceCheck_td (ts : List Transaction) (f : Footer) :
    (closingBalanceCheck ts f).countP isTotalDebitsWarning = 0 := by
  unfold closingBalanceCheck
  repeat' split
  all_goals simp [List.countP_cons, isTotalDebitsWarning]

/-- The total-withdrawals comparison never produces a total-debits mismatch
warning. -/
theorem countP_totalWithdrawalsCheck_td (ts : List Transaction) (f : Footer) :
    (totalWithdrawalsCheck ts f).countP isTotalDebitsWarning = 0 := by
  unfold totalWithdrawalsCheck
  cases f.totalWithdrawals <;>
    simp [apply_ite (List.countP isTotalDebitsWarning), List.countP_cons,
      isTotalDebitsWarning]

/-- The total-deposits comparison never produces a total-debits mismatch
warning. -/
theorem countP_totalDepositsCheck_td (ts : List Transaction) (f : Footer) :
    (totalDepositsCheck ts f).countP isTotalDebitsWarning = 0 := by
  unfold totalDepositsCheck
  cases f.totalDeposits <;>
    simp [apply_ite (List.countP isTotalDebitsWarning), List.countP_cons,
      isTotalDebitsWarning]

/-- The total-debits comparison produces exactly one total-debits mismatch
warning when the footer value is present and beyond tolerance, and none
otherwise. -/
theorem countP_totalDebitsCheck (ts : List Transaction) (f : Footer) :
    (totalDebitsCheck ts f).countP isTotalDebitsWarning =
      (match f.totalDebits with
       | some v => if jsAbs (sumDebits ts - v) > tolerance then 1 else 0
       | none => 0) := by
  unfold totalDebitsCheck
  cases f.totalDebits <;>
    simp [apply_ite (List.countP isTotalDebitsWarning), List.countP_cons,
      isTotalDebitsWarning]

/-- On a non-empty transaction list, the number of total-debits mismatch
warnings validateTransactionData emits is governed exactly by the footer
comparison. -/
theorem countP_td_validate (ts : List Transaction) (f : Footer) (h : ts ≠ []) :
    (validateTransactionData ts (some f)).accuracyWarnings.countP
        isTotalDebitsWarning =
      (match f.totalDebits with
       | some v => if jsAbs (sumDebits ts - v) > tolerance then 1 else 0
       | none => 0) := by
  have hni : ¬ ts.isEmpty = true := by simp [List.isEmpty_iff, h]
  simp only [validateTransactionData]
  rw [if_neg hni]
  simp only [footerWarnings, List.countP_append, countP_precisionWarnings_td,
    countP_totalCreditsCheck_td, countP_closingBalanceCheck_td,
    countP_totalWithdrawalsCheck_td, countP_totalDepositsCheck_td,
    countP_totalDebitsCheck]
  simp

/-- Amended claim C6 (theorem).  With a footer present, for every non-empty
transaction list: an exactly matching footer totalDebits produces no
total-debits mismatch warning (this also holds vacuously for the empty list,
whose early return carries no warnings), a footer totalDebits that differs
from the extracted sum by more than the 0.01 tolerance produces exactly one
such warning, and the footer influences only the accuracy warnings - the
issues are identical with and without it. -/
theorem validateTransactionData_totalDebits_tolerance
    (ts : List Transaction) (f : Footer) (d : ℚ) :
    (f.totalDebits = some (sumDebits ts) →
      (validateTransactionData ts (some f)).accuracyWarnings.countP
        isTotalDebitsWarning = 0) ∧
    (ts ≠ [] → f.totalDebits = some d →
      jsAbs (sumDebits ts - d) > tolerance →
      (validateTransactionData ts (some f)).accuracyWarnings.countP
        isTotalDebitsWarning = 1) ∧
    (validateTransactionData ts (some f)).issues =
      (validateTransactionData ts none).issues := by
  refine ⟨?_, ?_, ?_⟩
  · intro hf
    by_cases he : ts = []
    · subst he
      simp [validateTransactionData]
    · rw [countP_td_validate ts f he, hf]
      have : jsAbs (sumDebits ts - sumDebits ts) = 0 := by simp [jsAbs]
      simp only [this]
      have : ¬ ((0 : ℚ) > tolerance) := by norm_num [tolerance]
      simp [this]
  · intro hne hf hgt
    rw [countP_td_validate ts f hne, hf]
    simp [hgt]
  · by_cases he : ts.isEmpty = true <;> simp [validateTransactionData, he]

/-- Witness for the amended claim C6: one transaction with debit 5 and a
footer claiming 7 yields exactly one total-debits mismatch warning. -/
theorem validateTransactionData_totalDebits_tolerance_witness :
    (validateTransactionData [⟨"2024-01-01", "rent", some 5, none, none⟩]
      (some ⟨none, some 7, none, none, none, none⟩)).accuracyWarnings.countP
        isTotalDebitsWarning = 1 :=
  (validateTransactionData_totalDebits_tolerance
    [⟨"2024-01-01", "rent", some 5, none, none⟩]
    ⟨none, some 7, none, none, none, none⟩ 7).2.1
    (by decide) rfl (by with_unfolding_all decide)

/-- Counterexample to claim C6 as stated: with an empty transaction list the
function returns before the footer comparison, so a footer totalDebits that
differs from the (zero) extracted sum by far more than 0.01 produces no
mismatch warning at all. -/
theorem validateTransactionData_totalDebits_counterexample :
    jsAbs (sumDebits ([] : List Transaction) - 5) > tolerance ∧
    (validateTransactionData []
      (some ⟨none, some 5, none, none, none, none⟩)).accuracyWarnings = [] := by
  constructor
  · with_unfolding_all decide
  · with_unfolding_all decide

/-! ### Formatter and cell typer on concrete documents (claims C2, C5) -/

/-- A structured document with a one-field header and four complete
transactions: its assembled matrix has 2 header-block rows, 1 table header
row and 4 transaction rows, 7 rows in total. -/
def fourTxnDoc : StructuredPdfDataOutput :=
  ⟨some ⟨some "ABC", none, none, none, none, none⟩,
   [⟨"2024-02-03", "Card payment", none, none, none⟩,
    ⟨"2024-02-04", "Direct debit", none, none, none⟩,
    ⟨"2024-02-05", "Salary", none, none, none⟩,
    ⟨"2024-02-06", "Groceries", none, none, none⟩], none⟩

/-- Claim C2 (code bug, evaluation theorem).  On a document with a
one-field header and four transactions the assembled matrix has exactly 7
rows, so the length-equals-7 sentinel test of formatStructuredDataForExcel
fires and the function discards the four assembled transaction rows,
returning the single-cell no-data sentinel - although its own comment says
the test means only header rows are present. -/
theorem formatStructuredDataForExcel_sentinel_despite_transactions :
    fourTxnDoc.transactions.length = 4 ∧
    formatStructuredDataForExcel (some fourTxnDoc) = [[Cell.str noDataMsg]] := by
  constructor
  · decide
  · decide

/-- The round-trip document of the specification: header with bank name ABC,
one transaction dated 2024-02-03 with debit 24.50 and balance 39975.50, no
footer. -/
def roundTripDoc : StructuredPdfDataOutput :=
  ⟨some ⟨some "ABC", none, none, none, none, none⟩,
   [⟨"2024-02-03", "X", some (49 / 2), none, some (79951 / 2)⟩], none⟩

/-- Counterexample to claim C5 as stated: the formatted round-trip matrix has
only 4 rows (indices 0 to 3), so there is no cell at column 0 of row 4, and
the freeze split sits at row index 3, not 4. -/
theorem cellTyper_roundTrip_counterexample :
    (formatStructuredDataForExcel (some roundTripDoc)).length = 4 ∧
    sheetCellKind (formatStructuredDataForExcel (some roundTripDoc)) 4 0 = none ∧
    frozenRowIndex (formatStructuredDataForExcel (some roundTripDoc)) = 3 := by
  refine ⟨?_, ?_, ?_⟩ <;> decide

/-- Amended claim C5 (theorem).  On the formatted round-trip matrix the
detected header row is 2; in the transaction row - index 3, the row
immediately after the header - the cell typer types column 0 as a date cell
and the populated numeric columns 2 (Paid Out) and 4 (Balance) as numeric
with the two-decimal format, column 3 (Paid In) holding no cell because the
value is null; and the freeze split is placed at row index 3. -/
theorem cellTyper_roundTrip_amended :
    (findTransactionTableBounds
      (formatStructuredDataForExcel (some roundTripDoc))).headerRow = 2 ∧
    sheetCellKind (formatStructuredDataForExcel (some roundTripDoc)) 3 0 =
      some CellKind.dateCell ∧
    sheetCellKind (formatStructuredDataForExcel (some roundTripDoc)) 3 2 =
      some CellKind.numeric2 ∧
    sheetCellKind (formatStructuredDataForExcel (some roundTripDoc)) 3 3 = none ∧
    sheetCellKind (formatStructuredDataForExcel (some roundTripDoc)) 3 4 =
      some CellKind.numeric2 ∧
    frozenRowIndex (formatStructuredDataForExcel (some roundTripDoc)) = 3 := by
  refine ⟨?_, ?_, ?_, ?_, ?_, ?_⟩ <;> decide

/-! ### Pipeline threshold (claim C3) -/

/-- Counterexample to claim C3 as stated: a direct-extraction result of
length exactly 100 - the threshold itself - is not used as-is; the strict
greater-than test fails and the OCR fallback runs. -/
theorem runsOcrFallback_at_threshold_counterexample :
    (String.mk (List.replicate 100 'a')).length = MIN_TEXT_LENGTH_FOR_TEXT_PDF ∧
    runsOcrFallback (String.mk (List.replicate 100 'a')) = true := by
  constructor
  · decide
  · decide

/-- Amended claim C3 (theorem).  The pipeline controller falls back to OCR
exactly when the direct-extraction result is at most 100 characters long
(equivalently, strictly shorter than 101); only results of 101 characters or
more are used as-is. -/
theorem runsOcrFallback_iff_le_threshold (s : String) :
    runsOcrFallback s = decide (s.length ≤ MIN_TEXT_LENGTH_FOR_TEXT_PDF) := by
  unfold runsOcrFallback usesDirectText
  by_cases h : s.length ≤ MIN_TEXT_LENGTH_FOR_TEXT_PDF
  · simp [h, Nat.not_lt.mpr h]
  · have h2 : MIN_TEXT_LENGTH_FOR_TEXT_PDF < s.length := Nat.not_le.mp h
    have hne : s ≠ "" := by
      intro e
      rw [e] at h2
      simp [MIN_TEXT_LENGTH_FOR_TEXT_PDF] at h2
    simp [hne, h2, h]

/-! ### Structuring client (claim C7) -/

/-- The cleansing predicate of the flow equals the trim-based predicate of
the specification: a string trimming to something non-empty is in particular
non-empty, so the truthiness conjunct is redundant. -/
theorem keepTransaction_eq_trim (t : Transaction) :
    keepTransaction t =
      (decide (jsTrim t.date ≠ "") && decide (jsTrim t.description ≠ "")) := by
  by_cases h1 : jsTrim t.date = ""
  · simp [keepTransaction, h1]
  · by_cases h2 : jsTrim t.description = ""
    · simp [keepTransaction, h1, h2]
    · have hd : t.date ≠ "" := fun e => h1 (by rw [e]; rfl)
      have hde : t.description ≠ "" := fun e => h2 (by rw [e]; rfl)
      simp [keepTransaction, h1, h2, hd, hde]

/-- Claim C7 (theorem).  The structuring client signals the no-output error
exactly when the capability returns no output; on every capability response
carrying a transactions array it returns the transactions whose date and
description trim to non-empty strings, in their original order (filter
preserves order), with header and footer passed through unchanged. -/
theorem structurePdfDataFlow_characterization :
    structurePdfDataFlow none = Except.error StructuringError.noOutput ∧
    ∀ (hdr : Option Header) (ts : List Transaction) (ftr : Option Footer),
      structurePdfDataFlow (some ⟨hdr, some ts, ftr⟩) =
        Except.ok ⟨hdr,
          ts.filter (fun t =>
            decide (jsTrim t.date ≠ "") && decide (jsTrim t.description ≠ "")),
          ftr⟩ := by
  constructor
  · rfl
  · intro hdr ts ftr
    simp only [structurePdfDataFlow]
    rw [List.filter_congr (fun t _ => keepTransaction_eq_trim t)]

/-! ### OCR fallback orchestration (claim C8) -/

/-- With no cancellation and no render failure, the page loop always
completes, appending the accumulated recognized texts in page order. -/
theorem ocrLoop_no_render_fail :
    ∀ (events : List PageEvent) (i : Nat) (acc : String),
      (∀ e ∈ events, e ≠ PageEvent.renderError) →
      ocrLoop events i none acc = Except.ok (acc ++ accumTexts events) := by
  intro events
  induction events with
  | nil =>
    intro i acc _
    simp [ocrLoop, accumTexts, String.append_empty]
  | cons e rest ih =>
    intro i acc h
    have he : e ≠ PageEvent.renderError := h e (List.mem_cons_self e rest)
    have hr : ∀ x ∈ rest, x ≠ PageEvent.renderError :=
      fun x hx => h x (List.mem_cons_of_mem e hx)
    cases e with
    | renderError => exact absurd rfl he
    | recogError =>
      simp only [ocrLoop, cancelFired]
      rw [ih (i + 1) acc hr]
      rfl
    | recogOk t =>
      simp only [ocrLoop, cancelFired]
      rw [ih (i + 1) _ hr]
      cases ht : t == "" <;>
        simp [ht, accumTexts, String.append_assoc, String.empty_append]

/-- Amended claim C8 (theorem).  When no page render fails and no
cancellation fires, a per-page recognition failure never fails the OCR run:
the recognized texts of the other pages are accumulated in page order, and
the run as a whole fails only - with the no-text error - when no page
contributed any text. -/
theorem ocrRun_skips_recognition_failures
    (events : List PageEvent)
    (h : ∀ e ∈ events, e ≠ PageEvent.renderError) :
    ocrRun events none =
      (if accumTexts events == "" then Except.error OcrFailure.noTextAccumulated
       else Except.ok (accumTexts events)) := by
  unfold ocrRun
  rw [ocrLoop_no_render_fail events 0 "" h, String.empty_append]

/-- Witness for the amended claim C8: the five-page scenario of the
specification, with recognition failing on page 3, still yields the texts of
pages 1, 2, 4 and 5 in order. -/
theorem ocrRun_skips_recognition_failures_witness :
    ocrRun [PageEvent.recogOk "p1", PageEvent.recogOk "p2", PageEvent.recogError,
            PageEvent.recogOk "p4", PageEvent.recogOk "p5"] none =
      Except.ok "p1\n\np2\n\np4\n\np5\n\n" := by
  rw [ocrRun_skips_recognition_failures _ (by decide)]
  rfl

/-- Counterexample to claim C8 as stated: when recognition fails on every
page (here a one-page document) the whole run throws the no-text error even
though the cancellation token never fired and no page render failed. -/
theorem ocrRun_all_recognition_failed_counterexample :
    (∀ e ∈ [PageEvent.recogError], e ≠ PageEvent.renderError) ∧
    ocrRun [PageEvent.recogError] none =
      Except.error OcrFailure.noTextAccumulated :=
  ⟨by decide, rfl⟩

/-! ### Export-time validation (claim C9) -/

/-- A row passes the export validation when it is an array all of whose
cells are of a legal type. -/
def jsRowOk (r : JsRow) : Bool :=
  match r with
  | JsRow.notArray => false
  | JsRow.arr cells => cells.all (fun c => !invalidCell c)

/-- The cell scan reports nothing exactly when every cell of the row is of a
legal type. -/
theorem findCellError_eq_none_iff :
    ∀ (ri ci : Nat) (cells : List JsVal),
      findCellError ri ci cells = none ↔ ∀ c ∈ cells, invalidCell c = false := by
  intro ri ci cells
  induction cells generalizing ci with
  | nil => simp [findCellError]
  | cons c rest ih =>
    by_cases hc : invalidCell c = true
    · simp [findCellError, hc]
    · have hc2 : invalidCell c = false := by simpa using hc
      simp [findCellError, hc2, ih]

/-- The row scan reports nothing exactly when every row passes the export
validation. -/
theorem findRowError_eq_none_iff :
    ∀ (i : Nat) (data : List JsRow),
      findRowError i data = none ↔ ∀ r ∈ data, jsRowOk r = true := by
  intro i data
  induction data generalizing i with
  | nil => simp [findRowError]
  | cons r rest ih =>
    cases r with
    | notArray => simp [findRowError, jsRowOk]
    | arr cells =>
      rcases hfc : findCellError i 0 cells with _ | e
      · have hcells := (findCellError_eq_none_iff i 0 cells).mp hfc
        simp only [findRowError, hfc]
        rw [ih (i + 1)]
        simp only [List.mem_cons, forall_eq_or_imp]
        have : jsRowOk (JsRow.arr cells) = true := by
          simp [jsRowOk, List.all_eq_true]
          intro c hc
          simp [hcells c hc]
        simp [this]
      · have hbad : ¬ ∀ c ∈ cells, invalidCell c = false := by
          intro hall
          rw [(findCellError_eq_none_iff i 0 cells).mpr hall] at hfc
          cases hfc
        simp only [findRowError, hfc]
        constructor
        · intro h
          cases h
        · intro h
          have := h (JsRow.arr cells) (List.mem_cons_self _ _)
          simp [jsRowOk, List.all_eq_true] at this
          exact absurd (fun c hc => by simpa using this c hc) hbad

/-- Closed form of the export entry: the empty-data error first, then the
first row or cell error, and the ok outcome only when validation passes. -/
theorem exportToExcelResult_eq (data : List JsRow) :
    exportToExcelResult data =
      (if data.isEmpty then Except.error "No data to export"
       else match findRowError 0 data with
            | some e => Except.error e
            | none => Except.ok data) := by
  unfold exportToExcelResult validateDataBeforeExport
  by_cases he : data.isEmpty = true
  · simp [he]
  · simp only [he, if_false, Bool.false_eq_true]
    rcases hfr : findRowError 0 data with _ | e <;> simp [hfr]

/-- Claim C9 (theorem).  exportToExcel rejects the data - throwing before any
worksheet or workbook is constructed - exactly when the matrix is empty,
contains a non-array row, or contains a cell of an illegal runtime type; in
particular an empty matrix is never silently exported. -/
theorem exportToExcelResult_error_iff (data : List JsRow) :
    (∃ msg, exportToExcelResult data = Except.error msg) ↔
      (data = [] ∨ JsRow.notArray ∈ data ∨
       ∃ cells, JsRow.arr cells ∈ data ∧ ∃ c ∈ cells, invalidCell c = true) := by
  rw [exportToExcelResult_eq]
  by_cases he : data.isEmpty = true
  · have : data = [] := List.isEmpty_iff.mp he
    subst this
    simp
  · have hne : data ≠ [] := fun e => he (by simp [e])
    simp only [he, if_false, Bool.false_eq_true]
    rcases hfr : findRowError 0 data with _ | e
    · have hrows := (findRowError_eq_none_iff 0 data).mp hfr
      constructor
      · rintro ⟨msg, hmsg⟩
        cases hmsg
      · rintro (h | h | ⟨cells, hmem, c, hcmem, hc⟩)
        · exact absurd h hne
        · have := hrows _ h
          simp [jsRowOk] at this
        · have := hrows _ hmem
          simp [jsRowOk, List.all_eq_true] at this
          have := this c hcmem
          simp [hc] at this
    · constructor
      · intro _
        have hbad : ¬ ∀ r ∈ data, jsRowOk r = true := by
          intro hall
          rw [(findRowError_eq_none_iff 0 data).mpr hall] at hfr
          cases hfr
        rcases not_forall.mp hbad with ⟨r, hr⟩
        rcases Classical.not_imp.mp hr with ⟨hrmem, hrok⟩
        cases r with
        | notArray => exact Or.inr (Or.inl hrmem)
        | arr cells =>
          refine Or.inr (Or.inr ⟨cells, hrmem, ?_⟩)
          have : ¬ ∀ c ∈ cells, (!invalidCell c) = true := by
            intro hall
            exact hrok (by simp [jsRowOk, List.all_eq_true]; intro c hc; simpa using hall c hc)
          rcases not_forall.mp this with ⟨c, hc⟩
          rcases Classical.not_imp.mp hc with ⟨hcmem, hcval⟩
          exact ⟨c, hcmem, by simpa using hcval⟩
      · intro _
        exact ⟨e, rfl⟩

/-- Witness for claim C9: the empty matrix is rejected with an error. -/
theorem exportToExcelResult_error_iff_witness :
    ∃ msg, exportToExcelResult [] = Except.error msg :=
  (exportToExcelResult_error_iff []).mpr (Or.inl rfl)

/-! ### Table-bounds characterization (claim C4) -/

/-- Whether the row at position k of the matrix satisfies p; out-of-range
positions hold no row and fail. -/
def candAt (p : List Cell → Bool) (rows : List (List Cell)) (k : Nat) : Bool :=
  match rows.get? k with
  | some r => p r
  | none => false

/-- Whether the row at position k is a header candidate of
findTransactionTableBounds. -/
def headerCandAt (data : List (List Cell)) (k : Nat) : Bool :=
  candAt isHeaderCandRow data k

/-- Whether the row at position k ends the transaction table. -/
def endCandAt (data : List (List Cell)) (k : Nat) : Bool :=
  candAt firstCellEndsTable data k

/-- A scan over rows none of which satisfies the predicate finds nothing. -/
theorem scanIdx_eq_none_of (p : List Cell → Bool) :
    ∀ (rows : List (List Cell)) (i : Nat),
      (∀ r ∈ rows, p r = false) → scanIdx p i rows = none := by
  intro rows
  induction rows with
  | nil => intro i _; rfl
  | cons r rest ih =>
    intro i h
    have hr : p r = false := h r (List.mem_cons_self _ _)
    simp [scanIdx, hr, ih (i + 1) (fun x hx => h x (List.mem_cons_of_mem _ hx))]

/-- A scan starting at offset i finds the least satisfying position j of the
row list, reported as i + j. -/
theorem scanIdx_eq_some_of (p : List Cell → Bool) :
    ∀ (rows : List (List Cell)) (i j : Nat),
      candAt p rows j = true →
      (∀ k, k < j → candAt p rows k = false) →
      scanIdx p i rows = some (i + j) := by
  intro rows
  induction rows with
  | nil => intro i j hj _; simp [candAt] at hj
  | cons r rest ih =>
    intro i j hj hmin
    cases j with
    | zero =>
      have hr : p r = true := by simpa [candAt] using hj
      simp [scanIdx, hr]
    | succ j2 =>
      have h0 : p r = false := by
        have := hmin 0 (Nat.succ_pos j2)
        simpa [candAt] using this
      have hj2 : candAt p rest j2 = true := by simpa [candAt] using hj
      have hmin2 : ∀ k, k < j2 → candAt p rest k = false := by
        intro k hk
        have := hmin (k + 1) (Nat.succ_lt_succ hk)
        simpa [candAt] using this
      simp only [scanIdx, h0, Bool.false_eq_true, if_false]
      rw [ih (i + 1) j2 hj2 hmin2]
      simp only [Option.some.injEq]
      omega

/-- Amended claim C4 (theorem).  findTransactionTableBounds takes as header
row the first row with at least 5 cells whose first cell case-insensitively
equals "date" (rows narrower than 5 cells are never header candidates); when
no such row exists the whole grid is the table with row 0 as header.  Given
the least header candidate h, the end boundary is the row before the first
later row with at least one cell whose stringified first cell is empty or a
footer label - zero-length separator rows never end the table - and in the
absence of such a row the table runs to the last row. -/
theorem findTransactionTableBounds_characterization (data : List (List Cell)) :
    ((∀ i, i < data.length → headerCandAt data i = false) →
      findTransactionTableBounds data =
        ⟨0, (data.length : Int) - 1, 0⟩) ∧
    (∀ h, headerCandAt data h = true →
      (∀ k, k < h → headerCandAt data k = false) →
      (findTransactionTableBounds data).headerRow = (h : Int) ∧
      (findTransactionTableBounds data).startRow = (h : Int) ∧
      ((∀ j, j < data.length → h < j → endCandAt data j = false) →
        (findTransactionTableBounds data).endRow = (data.length : Int) - 1) ∧
      (∀ j, h < j → endCandAt data j = true →
        (∀ k, k < j → h < k → endCandAt data k = false) →
        (findTransactionTableBounds data).endRow = (j : Int) - 1)) := by
  constructor
  · intro hall
    have hnone : scanIdx isHeaderCandRow 0 data = none := by
      apply scanIdx_eq_none_of
      intro r hr
      rcases List.mem_iff_get?.mp hr with ⟨n, hn⟩
      have hlt : n < data.length := by
        rcases List.get?_eq_some.mp hn with ⟨h1, _⟩
        exact h1
      have hcnd := hall n hlt
      rw [List.get?_eq_getElem?] at hn
      simpa [headerCandAt, candAt, hn] using hcnd
    simp [findTransactionTableBounds, hnone]
  · intro h hcand hmin
    have hsome : scanIdx isHeaderCandRow 0 data = some h := by
      have := scanIdx_eq_some_of isHeaderCandRow data 0 h hcand hmin
      simpa using this
    have hb : findTransactionTableBounds data =
        { startRow := (h : Int),
          endRow :=
            (match scanIdx firstCellEndsTable (h + 1) (data.drop (h + 1)) with
             | some i => (i : Int) - 1
             | none => (data.length : Int) - 1),
          headerRow := (h : Int) } := by
      simp [findTransactionTableBounds, hsome]
    refine ⟨by rw [hb], by rw [hb], ?_, ?_⟩
    · intro hnoend
      have hnone : scanIdx firstCellEndsTable (h + 1) (data.drop (h + 1)) = none := by
        apply scanIdx_eq_none_of
        intro r hr
        rcases List.mem_iff_get?.mp hr with ⟨m, hm⟩
        rw [List.get?_drop] at hm
        have hlt : h + 1 + m < data.length := by
          rcases List.get?_eq_some.mp hm with ⟨h1, _⟩
          exact h1
        have hcnd := hnoend (h + 1 + m) hlt (by omega)
        rw [List.get?_eq_getElem?] at hm
        simpa [endCandAt, candAt, hm] using hcnd
      rw [hb]
      simp [hnone]
    · intro j hj hjc hjmin
      have hjm : j = h + 1 + (j - (h + 1)) := by omega
      have hcand2 : candAt firstCellEndsTable (data.drop (h + 1)) (j - (h + 1)) = true := by
        simp only [candAt, List.get?_drop]
        rw [← hjm]
        simpa [endCandAt, candAt] using hjc
      have hmin2 : ∀ k, k < j - (h + 1) →
          candAt firstCellEndsTable (data.drop (h + 1)) k = false := by
        intro k hk
        simp only [candAt, List.get?_drop]
        have := hjmin (h + 1 + k) (by omega) (by omega)
        simpa [endCandAt, candAt] using this
      have hsome2 := scanIdx_eq_some_of firstCellEndsTable (data.drop (h + 1))
        (h + 1) (j - (h + 1)) hcand2 hmin2
      rw [hb]
      simp only [hsome2]
      omega

/-- Witness matrix for the amended claim C4: a narrow first row, a five-cell
header row, one transaction row, then an empty-first-cell row ending the
table. -/
def boundsWitnessData : List (List Cell) :=
  [[Cell.str "x"],
   [Cell.str "Date", Cell.str "a", Cell.str "b", Cell.str "c", Cell.str "d"],
   [Cell.str "2024-01-02", Cell.str "t", Cell.str "u", Cell.str "v", Cell.str "w"],
   [Cell.str ""]]

/-- Witness for the amended claim C4 on the concrete witness matrix. -/
theorem findTransactionTableBounds_characterization_witness :
    (findTransactionTableBounds boundsWitnessData).headerRow = (1 : Int) ∧
    (findTransactionTableBounds boundsWitnessData).endRow = (2 : Int) := by
  have h := (findTransactionTableBounds_characterization boundsWitnessData).2 1
    (by decide) (by decide)
  refine ⟨h.1, ?_⟩
  have h2 := h.2.2.2 3 (by decide) (by decide) (by decide)
  rw [h2]
  decide

/-- Modelled from the claim's words: the header row is the first row whose
first cell case-insensitively equals "date", with no requirement on the
number of cells in the row. -/
def claimHeaderRowIdx (data : List (List Cell)) : Option Nat :=
  scanIdx firstCellIsDate 0 data

/-- Counterexample to claim C4 as stated: a matrix whose first row starts
with "date" but has only 4 cells.  The claim's rule picks row 0 as header;
findTransactionTableBounds skips it because of its width guard and picks
row 1. -/
theorem findTransactionTableBounds_counterexample :
    claimHeaderRowIdx
      [[Cell.str "date", Cell.str "a", Cell.str "b", Cell.str "c"],
       [Cell.str "Date", Cell.str "a", Cell.str "b", Cell.str "c", Cell.str "e"]]
      = some 0 ∧
    (findTransactionTableBounds
      [[Cell.str "date", Cell.str "a", Cell.str "b", Cell.str "c"],
       [Cell.str "Date", Cell.str "a", Cell.str "b", Cell.str "c", Cell.str "e"]]).headerRow
      = 1 := by
  constructor
  · decide
  · decide

end XLSConvert
